/-
  Verification of the brain-demo repository's algorithmic core.

  Shallow embedding of:
  - src/utils/crossSection.js   (createSectionPlane)
  - src/utils/wireframe.js      (applyWireframe snapshot/restore)
  - src/utils/transparency.js   (applyTransparency)
  - src/utils/neuron.js         (isPointInSafeBox, getMaxSafeDistance,
                                 createNeuron, calculateConnectionProbability,
                                 createNeuronNetwork, createSignalPulse,
                                 animateNeuralSignalPropagation)

  JavaScript numbers are modelled as real numbers; random draws are
  modelled as explicit oracle parameters (the code calls Math.random()
  with no seed control), so every theorem quantifies over all possible
  random outcomes.  THREE.Vector3 mutation-by-aliasing in the source
  (multiplyScalar mutates in place) is reproduced faithfully by
  threading the current value of each mutated variable.
-/
import Mathlib

namespace BrainDemo

/- JavaScript numbers are modelled as ℝ, so data-producing definitions are
not executable bit-for-bit; they are still fully evaluated on concrete
rational inputs in the witness theorems below via `norm_num`. -/
noncomputable section

/-! ## Vectors and boxes (THREE.Vector3 / THREE.Box3 fragments used by the code) -/

/-- A 3-component vector over the reals (THREE.Vector3). -/
structure Vec3 where
  x : ℝ
  y : ℝ
  z : ℝ

/-- Componentwise addition (Vector3.add). -/
def Vec3.add (a b : Vec3) : Vec3 := ⟨a.x + b.x, a.y + b.y, a.z + b.z⟩

/-- Scalar multiple (Vector3.multiplyScalar, as a pure value). -/
def Vec3.smul (c : ℝ) (a : Vec3) : Vec3 := ⟨c * a.x, c * a.y, c * a.z⟩

/-- Componentwise subtraction (Vector3.sub / subVectors). -/
def Vec3.sub (a b : Vec3) : Vec3 := ⟨a.x - b.x, a.y - b.y, a.z - b.z⟩

/-- Euclidean length (Vector3.length). -/
def Vec3.len (a : Vec3) : ℝ :=
  Real.sqrt (a.x ^ 2 + a.y ^ 2 + a.z ^ 2)

/-- Euclidean distance (Vector3.distanceTo). -/
def dist3 (a b : Vec3) : ℝ := (a.sub b).len

/-- Vector3.normalize: divide by the length.  (Lean's `1/0 = 0` convention
makes the zero vector normalize to zero; the JS code only normalizes
nonzero vectors, and produces NaN on the zero vector.) -/
def Vec3.normalize (a : Vec3) : Vec3 := Vec3.smul (1 / a.len) a

/-- An axis-aligned box (THREE.Box3): two corner points. -/
structure Box3 where
  min : Vec3
  max : Vec3

/-- Box3.containsPoint: inclusive comparison on every axis. -/
def Box3.containsPoint (b : Box3) (p : Vec3) : Prop :=
  b.min.x ≤ p.x ∧ p.x ≤ b.max.x ∧
  b.min.y ≤ p.y ∧ p.y ≤ b.max.y ∧
  b.min.z ≤ p.z ∧ p.z ≤ b.max.z

instance (b : Box3) (p : Vec3) : Decidable (b.containsPoint p) := by
  unfold Box3.containsPoint; infer_instance

/-- Box3.getCenter: midpoint of the two corners. -/
def Box3.center (b : Box3) : Vec3 :=
  ⟨(b.min.x + b.max.x) / 2, (b.min.y + b.max.y) / 2, (b.min.z + b.max.z) / 2⟩

/-- Box3.getSize: componentwise extent. -/
def Box3.size (b : Box3) : Vec3 :=
  ⟨b.max.x - b.min.x, b.max.y - b.min.y, b.max.z - b.min.z⟩

/-! ## Cross-section subsystem (src/utils/crossSection.js) -/

/-- A THREE.Plane as produced by `createSectionPlane`: a normal vector and
the signed constant. -/
structure Plane where
  normal : Vec3
  constant : ℝ

/-- `createSectionPlane(type, position)` from src/utils/crossSection.js:
normalizes position from [0,1] to [-1,1] and picks the axis-aligned
normal by section type ('coronal' → x, 'sagittal' → y, 'axial' → z,
anything else falls back to the axial normal with a console warning). -/
def createSectionPlane (type_ : String) (position : ℝ) : Plane :=
  let normalizedPosition := (position - 0.5) * 2
  if type_ = "coronal" then ⟨⟨1, 0, 0⟩, normalizedPosition⟩
  else if type_ = "sagittal" then ⟨⟨0, 1, 0⟩, normalizedPosition⟩
  else if type_ = "axial" then ⟨⟨0, 0, 1⟩, normalizedPosition⟩
  else ⟨⟨0, 0, 1⟩, normalizedPosition⟩

/-! ## Material state toggles

src/utils/wireframe.js keeps three WeakMaps keyed by material identity
(originalColors, originalMaterials, originalProperties), all populated
together under the same `!originalMaterials.has(material)` guard and all
evicted together on disable.  We model the per-material slice of that
side table as an `Option WSnapshot` paired with the material; the model
traversal maps the per-material transition over the list of materials
reachable from the model.  Material numeric attributes are rationals and
colors are hex integers, so these definitions are fully decidable. -/

/-- The material attributes read or written by applyWireframe. -/
structure WMaterial where
  color : ℕ
  metalness : Option ℚ
  roughness : Option ℚ
  emissive : Option ℕ
  emissiveIntensity : ℚ
  matType : String
  wireframe : Bool
  visible : Bool
  transparent : Bool
  opacity : ℚ
deriving DecidableEq

/-- The snapshot captured on wireframe enable: the cloned color plus the
optional metalness/roughness and the emissive color with its intensity
(stored only when the material has an emissive, exactly as the JS props
object does). -/
structure WSnapshot where
  color : ℕ
  metalness : Option ℚ
  roughness : Option ℚ
  emissive : Option (ℕ × ℚ)
deriving DecidableEq

/-- The snapshot captured from a material by the enable branch of
applyWireframe. -/
def captureSnapshot (m : WMaterial) : WSnapshot :=
  ⟨m.color, m.metalness, m.roughness,
   m.emissive.map (fun e => (e, m.emissiveIntensity))⟩

/-- The `material.type === 'MeshStandardMaterial' || 'MeshPhysicalMaterial'`
test from applyWireframe. -/
def isLitType (t : String) : Bool :=
  t == "MeshStandardMaterial" || t == "MeshPhysicalMaterial"

/-- Enable branch of applyWireframe for one material: snapshot (only if
not already snapshotted), then apply the wireframe overrides. -/
def applyWireframeOn (m : WMaterial) (snap : Option WSnapshot) :
    WMaterial × Option WSnapshot :=
  let snap' := match snap with
    | some s => some s
    | none => some (captureSnapshot m)
  let m1 : WMaterial :=
    { m with wireframe := true, color := 0xd3d3d3, visible := true,
             transparent := false, opacity := 1 }
  let m2 : WMaterial :=
    if isLitType m1.matType then
      { m1 with
        metalness := m1.metalness.map (fun _ => 0),
        roughness := m1.roughness.map (fun _ => 1),
        emissive := m1.emissive.map (fun _ => 0xd3d3d3),
        emissiveIntensity :=
          if m1.emissive.isSome then 0.3 else m1.emissiveIntensity }
    else m1
  (m2, snap')

/-- Disable branch of applyWireframe for one material: clear the
wireframe flag, restore every captured attribute that both the snapshot
and the material carry, then evict the snapshot. -/
def applyWireframeOff (m : WMaterial) (snap : Option WSnapshot) :
    WMaterial × Option WSnapshot :=
  let m1 : WMaterial := { m with wireframe := false }
  let m2 : WMaterial :=
    match snap with
    | none => m1
    | some s =>
      let mc : WMaterial := { m1 with color := s.color }
      let mm : WMaterial :=
        match s.metalness, mc.metalness with
        | some v, some _ => { mc with metalness := some v }
        | _, _ => mc
      let mr : WMaterial :=
        match s.roughness, mm.roughness with
        | some v, some _ => { mm with roughness := some v }
        | _, _ => mm
      match s.emissive, mr.emissive with
      | some (ec, ei), some _ =>
        { mr with emissive := some ec, emissiveIntensity := ei }
      | _, _ => mr
  (m2, none)

/-- Per-material transition of `applyWireframe(model, wireframe)`. -/
def applyWireframeMat (wireframe : Bool) (p : WMaterial × Option WSnapshot) :
    WMaterial × Option WSnapshot :=
  if wireframe then applyWireframeOn p.1 p.2 else applyWireframeOff p.1 p.2

/-- `applyWireframe` over every material reachable from the model: the
scene traversal applies the per-material transition to each material of
each mesh. -/
def applyWireframeModel (wireframe : Bool)
    (mats : List (WMaterial × Option WSnapshot)) :
    List (WMaterial × Option WSnapshot) :=
  mats.map (applyWireframeMat wireframe)

/-- A concrete lit material used to exercise the wireframe round trip. -/
def sampleWMaterial : WMaterial :=
  ⟨0x123456, some 0.5, some 0.25, some 0xff6b6b, 0.5,
   "MeshStandardMaterial", false, true, false, 1⟩

/-! ## Transparency toggle (src/utils/transparency.js) -/

/-- The material attributes read or written by applyTransparency. -/
structure TMaterial where
  transparent : Bool
  opacity : ℚ
  depthWrite : Bool
deriving DecidableEq

/-- Per-material transition of `applyTransparency(model, transparent,
opacity)`: the enable branch sets transparent/opacity and derives
depthWrite from the opacity; the disable branch resets the three fields
to fixed defaults.  No snapshot of the prior values is taken anywhere in
this file. -/
def applyTransparencyMat (transparent : Bool) (opacity : ℚ) (_m : TMaterial) :
    TMaterial :=
  if transparent then
    { transparent := true, opacity := opacity, depthWrite := decide (opacity < 1) }
  else
    { transparent := false, opacity := 1, depthWrite := true }

/-- `applyTransparency` over every material reachable from the model. -/
def applyTransparencyModel (transparent : Bool) (opacity : ℚ)
    (mats : List TMaterial) : List TMaterial :=
  mats.map (applyTransparencyMat transparent opacity)

/-! ## Connection probability (src/utils/neuron.js, calculateConnectionProbability) -/

/-- `calculateConnectionProbability(distance, maxDistance, baseProbability)`:
exponential distance decay with a small-world local boost and global
damping. -/
def calculateConnectionProbability (distance maxDistance baseProbability : ℝ) : ℝ :=
  let distanceFactor := Real.exp (-distance / (maxDistance * 0.3))
  let localFactor : ℝ := if distance < maxDistance * 0.2 then 1.5 else 1.0
  let globalFactor : ℝ := if distance > maxDistance * 0.5 then 0.3 else 1.0
  baseProbability * distanceFactor * localFactor * globalFactor

/-- The same probability written exactly as the spec words it
(`baseProbability × exp(−d / (0.3×maxDistance)) × localBoost ×
globalDamp`), for the refinement comparison in C3. -/
def connectionProbabilitySpec (d maxDistance baseProbability : ℝ) : ℝ :=
  baseProbability * Real.exp (-d / (0.3 * maxDistance)) *
    (if d < 0.2 * maxDistance then 1.5 else 1) *
    (if d > 0.5 * maxDistance then 0.3 else 1)

/-! ## Signal pulse (src/utils/neuron.js, createSignalPulse)

The pulse's animate() callback reads the wall clock each frame; we model
the visible state it establishes as a function of the elapsed time `t`
since creation.  The synapse curve is modelled as the function
`curve : ℝ → Vec3` backing `curve.getPoint`. -/

/-- The state of a SignalPulse at a given elapsed time: either still
animating (with a position, a uniform scale and a material opacity), or
finished (removed from its parent, geometry disposed, material
disposed). -/
inductive PulseFrame where
  | active (position : Vec3) (scale opacity : ℝ)
  | finished (removedFromParent geometryDisposed materialDisposed : Bool)

/-- The animate() step of createSignalPulse at elapsed time `t`: while
`progress = elapsed/duration < 1` the pulse sits at
`curve.getPoint(progress)` with uniform scale and opacity
`Math.sin(progress * Math.PI * 2) * 0.2 + 0.8`; otherwise the pulse is
removed from its parent and its geometry and material are disposed. -/
def signalPulseFrame (curve : ℝ → Vec3) (duration t : ℝ) : PulseFrame :=
  let progress := t / duration
  if progress < 1 then
    let intensity := Real.sin (progress * Real.pi * 2) * 0.2 + 0.8
    .active (curve progress) intensity intensity
  else
    .finished true true true

/-! ## Neuron generator (src/utils/neuron.js)

`createNeuron` samples random directions and lengths via Math.random();
every random draw is an explicit oracle field here, so the theorems
quantify over all draws.  The code normalizes each random direction to a
unit vector; the oracles range over all vectors (unit ones included), so
every theorem below also covers the code's actual inputs.  THREE's
`multiplyScalar` mutates its receiver; the source repeatedly applies it
to the same direction variable, and the model threads the mutated value
exactly as the JS does. -/

/-- `isPointInSafeBox(point, box, margin)`: the point stays at least
`margin` inside every face of the box. -/
def isPointInSafeBox (point : Vec3) (box : Box3) (margin : ℝ) : Prop :=
  box.min.x + margin ≤ point.x ∧ point.x ≤ box.max.x - margin ∧
  box.min.y + margin ≤ point.y ∧ point.y ≤ box.max.y - margin ∧
  box.min.z + margin ≤ point.z ∧ point.z ≤ box.max.z - margin

instance (p : Vec3) (b : Box3) (m : ℝ) : Decidable (isPointInSafeBox p b m) := by
  unfold isPointInSafeBox; infer_instance

/-- The `!boundaryBox || isPointInSafeBox(...)` acceptance test used all
over createNeuron. -/
def safeOrNoBox (p : Vec3) (bb : Option Box3) (margin : ℝ) : Prop :=
  match bb with
  | none => True
  | some box => isPointInSafeBox p box margin

instance (p : Vec3) (bb : Option Box3) (m : ℝ) : Decidable (safeOrNoBox p bb m) := by
  unfold safeOrNoBox
  cases bb <;> infer_instance

/-- One axis of getMaxSafeDistance: the exit distance along that axis, or
`none` (the untouched JS `Infinity`) when the direction component is
zero. -/
def slabExit (p d lo hi : ℝ) : Option ℝ :=
  if 0 < d then some ((hi - p) / d)
  else if d < 0 then some ((p - lo) / (-d))
  else none

/-- `Math.min` against a possibly-Infinity accumulator. -/
def minInf (a b : Option ℝ) : Option ℝ :=
  match a, b with
  | none, b => b
  | a, none => a
  | some x, some y => some (min x y)

/-- `getMaxSafeDistance(position, direction, box, margin)`: least axis
exit distance toward the margin-inset faces, `maxDist > 0 ? maxDist : 0`
clamped; `none` models the JS Infinity returned when no axis constrains
(direction = (0,0,0)). -/
def getMaxSafeDistance (position direction : Vec3) (box : Box3) (margin : ℝ) :
    Option ℝ :=
  let m :=
    minInf (slabExit position.x direction.x (box.min.x + margin) (box.max.x - margin))
      (minInf (slabExit position.y direction.y (box.min.y + margin) (box.max.y - margin))
        (slabExit position.z direction.z (box.min.z + margin) (box.max.z - margin)))
  m.map (fun d => if 0 < d then d else 0)

/-- `Math.min(length, maxLength * 0.8)` where maxLength may be the JS
Infinity (in which case the min is just `length`). -/
def clipLen (length : ℝ) (maxLength : Option ℝ) : ℝ :=
  match maxLength with
  | none => length
  | some M => min length (M * 0.8)

/-- All random draws consumed by one createNeuron call.  dendriteCount,
dendriteLength and axonLength are the option defaults
`3 + ⌊rand·5⌋`, `0.1 + rand·0.15` and `0.2 + rand·0.3`; direction
oracles stand for `randomDirection()`/sphere sampling. -/
structure NeuronOracle where
  dendriteCount : ℕ
  dendriteLength : ℝ
  axonLength : ℝ
  dendriteDir : ℕ → Vec3
  dendriteLenFactor : ℕ → ℝ
  dendriteBranchRand : ℕ → ℝ
  dendriteBranchDir : ℕ → Vec3
  axonDir : Vec3
  axonBranchRand : ℝ
  axonBranchDir : ℕ → Vec3

/-- The dendrite loop of createNeuron: for each of dendriteCount
dendrites, clip the length to 80% of the safe exit distance, accept the
endpoint only if it stays inside the safety margin, and with probability
0.3 grow one branch (whose start point reuses the direction vector
already scaled by `length` — the multiplyScalar aliasing — and whose
endpoint is accepted under the same test).  Returns every accepted
endpoint (dendrites and dendrite branches). -/
def dendriteEndpoints (position : Vec3) (bb : Option Box3) (margin : ℝ)
    (O : NeuronOracle) : List Vec3 :=
  (List.range O.dendriteCount).flatMap (fun i =>
    let direction := O.dendriteDir i
    let length0 := O.dendriteLength * (0.7 + O.dendriteLenFactor i * 0.6)
    let length :=
      match bb with
      | none => length0
      | some box => clipLen length0 (getMaxSafeDistance position direction box margin)
    let dir1 := Vec3.smul length direction
    let endPoint := position.add dir1
    if safeOrNoBox endPoint bb margin then
      [endPoint] ++
        (if O.dendriteBranchRand i < 0.3 then
          let dir2 := Vec3.smul (length * 0.6) dir1
          let branchPoint := position.add dir2
          if safeOrNoBox branchPoint bb margin then
            let branchDirection := O.dendriteBranchDir i
            let branchLength0 := length * 0.4
            let branchLength :=
              match bb with
              | none => branchLength0
              | some box =>
                clipLen branchLength0 (getMaxSafeDistance branchPoint branchDirection box margin)
            let branchEnd := branchPoint.add (Vec3.smul branchLength branchDirection)
            if safeOrNoBox branchEnd bb margin then [branchEnd] else []
          else []
        else [])
    else [])

/-- The parts of a created neuron the claims are about, mirroring
`neuronGroup.userData`: position, the accepted dendrite endpoints, the
axon terminal (`none` models the NaN point the fallback produces when
the already-zero mutated direction forces an Infinity adjusted length)
and the accepted axon-branch endpoints. -/
structure Neuron where
  position : Vec3
  dendriteEndpoints : List Vec3
  axonEnd : Option Vec3
  axonBranchEndpoints : List Vec3

/-- `createNeuron(position, somaSize, {}, boundaryBox)` (geometry slice):
dendrites as above; the axon direction is mutated in place by each
multiplyScalar, so the fallback path recomputes getMaxSafeDistance with
the direction already scaled by actualAxonLength and then scales it
again by the adjusted length `max(0.05, maxLength·0.7)`. -/
def createNeuron (position : Vec3) (bb : Option Box3) (O : NeuronOracle) : Neuron :=
  let margin : ℝ := 0.05
  let dends := dendriteEndpoints position bb margin O
  let axonDirection := O.axonDir
  let actualAxonLength :=
    match bb with
    | none => O.axonLength
    | some box => clipLen O.axonLength (getMaxSafeDistance position axonDirection box margin)
  let dir1 := Vec3.smul actualAxonLength axonDirection
  let axonEnd0 := position.add dir1
  if safeOrNoBox axonEnd0 bb margin then
    let branches :=
      if O.axonBranchRand < 0.3 then
        let dir2 := Vec3.smul (actualAxonLength * 0.7) dir1
        let branchPoint := position.add dir2
        if safeOrNoBox branchPoint bb margin then
          (List.range 2).flatMap (fun i =>
            let branchDir := O.axonBranchDir i
            let branchLength0 := actualAxonLength * 0.3
            let branchLength :=
              match bb with
              | none => branchLength0
              | some box =>
                clipLen branchLength0 (getMaxSafeDistance branchPoint branchDir box margin)
            let branchEnd := branchPoint.add (Vec3.smul branchLength branchDir)
            if safeOrNoBox branchEnd bb margin then [branchEnd] else [])
        else []
      else []
    ⟨position, dends, some axonEnd0, branches⟩
  else
    match bb with
    | none => ⟨position, dends, none, []⟩
    | some box =>
      match getMaxSafeDistance position dir1 box margin with
      | none => ⟨position, dends, none, []⟩
      | some maxLength =>
        let adjustedLength := max 0.05 (maxLength * 0.7)
        ⟨position, dends, some (position.add (Vec3.smul adjustedLength dir1)), []⟩

/-! ## Network topology builder (src/utils/neuron.js, createNeuronNetwork)

The builder's acceptance pipeline only reads a created neuron's
`userData.axonEnd`, so each attempt's createNeuron call is abstracted by
the oracle field `axonEndO` giving the axon terminal that attempt's
random draws produce (`none` standing for the NaN terminal of the
degenerate fallback, which fails every containment test, as NaN
comparisons do in JS).  All other Math.random() draws are explicit
oracle fields indexed by the loop position that consumes them. -/

/-- What the builder keeps of a placed neuron: `userData.position` and
`userData.axonEnd`. -/
structure PlacedNeuron where
  position : Vec3
  axonEnd : Vec3

/-- A synapse as registered on the network: source/target neuron index
(positions in the builder's `neurons` array), and the from/to points
stored in `userData`. -/
structure NetSynapse where
  srcIdx : ℕ
  tgtIdx : ℕ
  fromPoint : Vec3
  toPoint : Vec3

/-- All random draws consumed by one createNeuronNetwork call.
clusterRand/clusterCount are indexed by cluster number;
offsetRand (the sum of the four Irwin–Hall uniforms, per component),
fillRand and axonEndO are indexed by the attempt counter at the moment
of the draw; connRand/retractRand by the (source, target) index pair. -/
structure GenOracle where
  clusterRand : ℕ → Vec3
  clusterCount : ℕ → ℕ
  offsetRand : ℕ → Vec3
  axonEndO : ℕ → Option Vec3
  fillRand : ℕ → Vec3
  connRand : ℕ → ℕ → ℝ
  retractRand : ℕ → ℕ → ℝ

/-- The derived quantities createNeuronNetwork computes once from the
bounding box and the request. -/
structure GenParams where
  box : Box3
  safeBox : Box3
  margin : ℝ
  count : ℕ
  maxAttempts : ℕ
  safeCenter : Vec3
  safeSize : Vec3
  clusterSize : ℝ

/-- The builder's mutable placement state: accepted neurons, the
neuronIndex counter and the attempts counter. -/
structure GenState where
  neurons : List PlacedNeuron
  neuronIndex : ℕ
  attempts : ℕ

/-- One placement attempt (shared by the cluster loop body and the fill
loop body): bump the attempts counter, then accept the candidate only if
the position lies in both the safe box and the original box and the
created neuron's axon terminal passes `isPointInSafeBox` with the
network margin. -/
def tryPlace (P : GenParams) (O : GenOracle) (pos : Vec3) (s : GenState) : GenState :=
  if P.safeBox.containsPoint pos ∧ P.box.containsPoint pos then
    match O.axonEndO s.attempts with
    | some e =>
      if isPointInSafeBox e P.box P.margin then
        ⟨s.neurons ++ [⟨pos, e⟩], s.neuronIndex + 1, s.attempts + 1⟩
      else ⟨s.neurons, s.neuronIndex, s.attempts + 1⟩
    | none => ⟨s.neurons, s.neuronIndex, s.attempts + 1⟩
  else ⟨s.neurons, s.neuronIndex, s.attempts + 1⟩

/-- The per-cluster inner loop: up to neuronsInCluster members, each
guarded by `neuronIndex < count && attempts < maxAttempts`, offset from
the cluster center by the Irwin–Hall sample scaled by clusterSize. -/
def clusterInner (P : GenParams) (O : GenOracle) (clusterCenter : Vec3) :
    ℕ → GenState → GenState
  | 0, s => s
  | n + 1, s =>
    if s.neuronIndex < P.count ∧ s.attempts < P.maxAttempts then
      clusterInner P O clusterCenter n (tryPlace P O
        (clusterCenter.add
          ⟨((O.offsetRand s.attempts).x - 2) * P.clusterSize * 0.25,
           ((O.offsetRand s.attempts).y - 2) * P.clusterSize * 0.25,
           ((O.offsetRand s.attempts).z - 2) * P.clusterSize * 0.25⟩) s)
    else s

/-- The cluster loop: for each cluster index (stopping early when the
count is reached or the attempts cap hit), draw a cluster center within
35% of the safe span around the safe center, skip it (`continue`) if it
falls outside the safe box, otherwise run the inner loop for
`min(5 + ⌊rand·8⌋, count − neuronIndex)` members. -/
def clusterLoop (P : GenParams) (O : GenOracle) :
    List ℕ → GenState → GenState
  | [], s => s
  | c :: rest, s =>
    if s.neuronIndex < P.count ∧ s.attempts < P.maxAttempts then
      if P.safeBox.containsPoint
          ⟨P.safeCenter.x + ((O.clusterRand c).x - 0.5) * P.safeSize.x * 0.35,
           P.safeCenter.y + ((O.clusterRand c).y - 0.5) * P.safeSize.y * 0.35,
           P.safeCenter.z + ((O.clusterRand c).z - 0.5) * P.safeSize.z * 0.35⟩ then
        clusterLoop P O rest
          (clusterInner P O
            ⟨P.safeCenter.x + ((O.clusterRand c).x - 0.5) * P.safeSize.x * 0.35,
             P.safeCenter.y + ((O.clusterRand c).y - 0.5) * P.safeSize.y * 0.35,
             P.safeCenter.z + ((O.clusterRand c).z - 0.5) * P.safeSize.z * 0.35⟩
            (min (5 + O.clusterCount c) (P.count - s.neuronIndex)) s)
      else clusterLoop P O rest s
    else s

/-- The shortfall `while (neuronIndex < count && attempts < maxAttempts)`
loop: uniform positions within 40% of the safe span around the safe
center, same acceptance.  The structural fuel only bounds the recursion:
each iteration bumps `attempts` and re-checks `attempts < maxAttempts`,
so with fuel maxAttempts + 1 the guard always trips before the fuel runs
out (see `fillLoop_fuel_irrelevant`). -/
def fillLoop (P : GenParams) (O : GenOracle) : ℕ → GenState → GenState
  | 0, s => s
  | fuel + 1, s =>
    if s.neuronIndex < P.count ∧ s.attempts < P.maxAttempts then
      fillLoop P O fuel (tryPlace P O
        ⟨P.safeCenter.x + ((O.fillRand s.attempts).x - 0.5) * P.safeSize.x * 0.4,
         P.safeCenter.y + ((O.fillRand s.attempts).y - 0.5) * P.safeSize.y * 0.4,
         P.safeCenter.z + ((O.fillRand s.attempts).z - 0.5) * P.safeSize.z * 0.4⟩ s)
    else s

/-- The connection phase: for every ordered pair (i, j) with i ≠ j,
compute d = distance(source.axonEnd, target.position) and the
connection probability; create a synapse exactly when the uniform draw
is below the probability and d < maxDistance.  The to-point retracts
0.05–0.10 units from the target position back along the source→target
direction. -/
def synapsePhase (neurons : List PlacedNeuron) (maxDistance baseProbability : ℝ)
    (O : GenOracle) : List NetSynapse :=
  neurons.enum.flatMap (fun p =>
    neurons.enum.filterMap (fun q =>
      if p.1 = q.1 then none
      else
        if O.connRand p.1 q.1 < calculateConnectionProbability
              (dist3 p.2.axonEnd q.2.position) maxDistance baseProbability ∧
            dist3 p.2.axonEnd q.2.position < maxDistance then
          some ⟨p.1, q.1, p.2.axonEnd,
            q.2.position.add (Vec3.smul (-0.05 - O.retractRand p.1 q.1 * 0.05)
              ((q.2.position.sub p.2.axonEnd).normalize))⟩
        else none))

/-- The network the builder returns: the accepted neurons, the synapse
list, plus the derived maxDistance and the final attempts counter (so
the attempt cap can be stated). -/
structure NetworkGraph where
  neurons : List PlacedNeuron
  synapses : List NetSynapse
  maxDistance : ℝ
  attempts : ℕ

/-- `createNeuronNetwork(brainModel, count, connectionProbability)` with
`box` the bounding box obtained from the model (or the fallback 2×2×2
box): derives maxDistance = 0.4·min(size), the 28%-margin safe box
shifted up by 10% of size.y, runs ⌊count/10⌋ clusters, fills the
shortfall, then wires synapses. -/
def createNeuronNetwork (box : Box3) (count : ℕ) (connectionProbability : ℝ)
    (O : GenOracle) : NetworkGraph :=
  let size := box.size
  let maxDistance := min (min size.x size.y) size.z * 0.4
  let margin := min (min size.x size.y) size.z * 0.28
  let yOffset := size.y * 0.1
  let safeBox : Box3 :=
    ⟨⟨box.min.x + margin, box.min.y + margin + yOffset, box.min.z + margin⟩,
     ⟨box.max.x - margin, box.max.y - margin + yOffset, box.max.z - margin⟩⟩
  let safeCenter := safeBox.center
  let safeSize := safeBox.size
  let clusters := count / 10
  let clusterSize := min (min safeSize.x safeSize.y) safeSize.z * 0.06
  let maxAttempts := count * 10
  let P : GenParams :=
    ⟨box, safeBox, margin, count, maxAttempts, safeCenter, safeSize, clusterSize⟩
  let s1 := clusterLoop P O (List.range clusters) ⟨[], 0, 0⟩
  let s2 := fillLoop P O (maxAttempts + 1) s1
  ⟨s2.neurons, synapsePhase s2.neurons maxDistance connectionProbability O,
   maxDistance, s2.attempts⟩

/-- The placement invariant: attempts within the cap, the neuron count
equal to neuronIndex, and neuronIndex within the requested count. -/
def GenInv (P : GenParams) (s : GenState) : Prop :=
  s.attempts ≤ P.maxAttempts ∧ s.neurons.length = s.neuronIndex ∧
    s.neuronIndex ≤ P.count

/-! ### A concrete builder run with two neurons and one synapse (C4 witness) -/

/-- The fallback 2×2×2 bounding box centered at the origin. -/
def wBox : Box3 := ⟨⟨-1, -1, -1⟩, ⟨1, 1, 1⟩⟩

/-- Concrete random draws: the two fill attempts place neurons at the
safe center and slightly to its +x side; the first neuron's axon
terminal lands 0.1 above the second neuron's position; the (0,1) pair
draws 0 (connect), every other pair draws 2 (reject). -/
def wOracle : GenOracle :=
  ⟨fun _ => ⟨0, 0, 0⟩, fun _ => 0, fun _ => ⟨2, 2, 2⟩,
   fun a => if a = 0 then some ⟨0.088, 0.2, 0.1⟩ else some ⟨0, 0.2, 0⟩,
   fun a => if a = 0 then ⟨0.5, 0.5, 0.5⟩ else ⟨0.75, 0.5, 0.5⟩,
   fun i j => if i = 0 ∧ j = 1 then 0 else 2,
   fun _ _ => 0⟩

/-- The first accepted neuron of the run. -/
def wN0 : PlacedNeuron := ⟨⟨0, 0.2, 0⟩, ⟨0.088, 0.2, 0.1⟩⟩

/-- The second accepted neuron of the run. -/
def wN1 : PlacedNeuron := ⟨⟨0.088, 0.2, 0⟩, ⟨0, 0.2, 0⟩⟩

/-- The single synapse of the run: 0 → 1, pair distance 0.1, to-point
retracted 0.05 along (0,0,-1) from the target position. -/
def wSyn : NetSynapse := ⟨0, 1, ⟨0.088, 0.2, 0.1⟩, ⟨0.088, 0.2, 0.05⟩⟩

/-! ## Signal propagation engine (src/utils/neuron.js, animateNeuralSignalPropagation)

The staged machine chains wall-clock timers (SourceFlash ≈75 ms, then
SynapseTransit 300 ms, then TargetFlash ≈100 ms).  The claims are about
which stages run and whether the animation is marked complete, so we
model the machine's eventual outcome as a pure function of its
arguments; timer delays do not alter which branch executes. -/

/-- The fields of a neuron group's userData read by the propagation
engine: whether userData is present at all, and whether it carries a
soma mesh. -/
structure PropNeuron where
  hasUserData : Bool
  hasSoma : Bool
deriving DecidableEq

/-- The fields of a synapse line read by the propagation engine: whether
it has a geometry, and the point count of the geometry's position
attribute when that attribute exists. -/
structure PropSynapse where
  hasGeometry : Bool
  positionCount : Option ℕ
deriving DecidableEq

/-- The eventual outcome of one triggered (source, target, synapse)
animation. -/
structure PropagationOutcome where
  sourceFlashRan : Bool
  pulsesCreated : ℕ
  synapseTransitRan : Bool
  targetFlashRan : Bool
  completed : Bool
deriving DecidableEq

/-- `animateNeuralSignalPropagation(sourceNeuron, targetNeuron, synapse,
scene)`: returns null (`none`) without animating when the source or its
userData or the scene is missing; flashes the source soma when present;
then, when the synapse with a non-empty geometry and the target are all
present, runs SynapseTransit (one SignalPulse) followed by TargetFlash
on the target soma and marks the animation complete — otherwise it
marks the animation complete right after SourceFlash.  (When the synapse
geometry exists but has no position data the code reaches neither
branch and never sets `completed`; that path is modelled faithfully.) -/
def animateNeuralSignalPropagation (sourceNeuron targetNeuron : Option PropNeuron)
    (synapse : Option PropSynapse) (scene : Option Unit) :
    Option PropagationOutcome :=
  match sourceNeuron with
  | none => none
  | some src =>
    if src.hasUserData = false then none
    else
      match scene with
      | none => none
      | some _ =>
        let sf := src.hasSoma
        match synapse, targetNeuron with
        | some syn, some tgt =>
          if syn.hasGeometry then
            match syn.positionCount with
            | some n =>
              if 0 < n then
                some ⟨sf, 1, true, tgt.hasSoma, true⟩
              else
                some ⟨sf, 0, false, false, false⟩
            | none => some ⟨sf, 0, false, false, false⟩
          else some ⟨sf, 0, false, false, true⟩
        | _, _ => some ⟨sf, 0, false, false, true⟩

/-! ## Theorems -/

/-- C1: for every position, `createSectionPlane` returns constant
`(position − 0.5) × 2` (so 0 ↦ −1, 0.5 ↦ 0, 1 ↦ 1, strictly monotonically)
with unit axis normal (1,0,0) for 'coronal', (0,1,0) for 'sagittal',
(0,0,1) for 'axial'; in particular ('axial', 0.75) gives normal (0,0,1)
and constant 0.5. -/
theorem createSectionPlane_spec (p q : ℝ) (hpq : p < q) :
    createSectionPlane "coronal" p = ⟨⟨1, 0, 0⟩, (p - 0.5) * 2⟩ ∧
    createSectionPlane "sagittal" p = ⟨⟨0, 1, 0⟩, (p - 0.5) * 2⟩ ∧
    createSectionPlane "axial" p = ⟨⟨0, 0, 1⟩, (p - 0.5) * 2⟩ ∧
    (createSectionPlane "coronal" 0).constant = -1 ∧
    (createSectionPlane "coronal" 0.5).constant = 0 ∧
    (createSectionPlane "coronal" 1).constant = 1 ∧
    (∀ t : String, (createSectionPlane t p).constant < (createSectionPlane t q).constant) ∧
    createSectionPlane "axial" 0.75 = ⟨⟨0, 0, 1⟩, 0.5⟩ := by
  refine ⟨rfl, rfl, rfl, by norm_num [createSectionPlane], by norm_num [createSectionPlane],
    by norm_num [createSectionPlane], ?_,
    by rw [show createSectionPlane "axial" 0.75 = ⟨⟨0, 0, 1⟩, ((0.75:ℝ) - 0.5) * 2⟩ from rfl]
       norm_num⟩
  intro t
  have h : ∀ r : ℝ, (createSectionPlane t r).constant = (r - 0.5) * 2 := by
    intro r
    unfold createSectionPlane
    split_ifs <;> rfl
  rw [h p, h q]
  linarith

/-- Witness for C1 at p = 0, q = 1. -/
theorem createSectionPlane_spec_witness :
    (0 : ℝ) < 1 ∧
    (createSectionPlane "coronal" 0 = ⟨⟨1, 0, 0⟩, ((0:ℝ) - 0.5) * 2⟩ ∧
     createSectionPlane "sagittal" 0 = ⟨⟨0, 1, 0⟩, ((0:ℝ) - 0.5) * 2⟩ ∧
     createSectionPlane "axial" 0 = ⟨⟨0, 0, 1⟩, ((0:ℝ) - 0.5) * 2⟩ ∧
     (createSectionPlane "coronal" 0).constant = -1 ∧
     (createSectionPlane "coronal" 0.5).constant = 0 ∧
     (createSectionPlane "coronal" 1).constant = 1 ∧
     (∀ t : String, (createSectionPlane t 0).constant < (createSectionPlane t 1).constant) ∧
     createSectionPlane "axial" 0.75 = ⟨⟨0, 0, 1⟩, 0.5⟩) :=
  ⟨by norm_num, createSectionPlane_spec 0 1 (by norm_num)⟩

/-- Restoration of one field set across the off-branch; helper facts. -/
theorem applyWireframe_roundtrip_mat (m : WMaterial) :
    (applyWireframeMat false (applyWireframeMat true (m, none))).1.color = m.color ∧
    (applyWireframeMat false (applyWireframeMat true (m, none))).1.metalness = m.metalness ∧
    (applyWireframeMat false (applyWireframeMat true (m, none))).1.roughness = m.roughness ∧
    (applyWireframeMat false (applyWireframeMat true (m, none))).1.emissive = m.emissive ∧
    (applyWireframeMat false (applyWireframeMat true (m, none))).1.emissiveIntensity
      = m.emissiveIntensity ∧
    (applyWireframeMat false (applyWireframeMat true (m, none))).2 = none := by
  obtain ⟨c, met, ro, em, ei, ty, wf, vis, tr, op⟩ := m
  simp only [applyWireframeMat, applyWireframeOn, applyWireframeOff, captureSnapshot,
    if_true, if_false, Bool.false_eq_true, ite_false, ite_true]
  cases met <;> cases ro <;> cases em <;>
    by_cases h : isLitType ty = true <;>
      simp [h, Option.map, Option.isSome]

/-- C6: wireframe toggle round-trip.  For every model and every material
reachable from it (each starting with no snapshot, i.e. not already in
an overridden mode), enabling wireframe and then disabling it restores
the material's color, metalness, roughness, emissive color and emissive
intensity to their pre-toggle values (exactly, in the real-number
model), and leaves no snapshot behind. -/
theorem wireframe_roundtrip (mats : List WMaterial) (q : WMaterial × Option WSnapshot)
    (hq : q ∈ applyWireframeModel false
            (applyWireframeModel true (mats.map (fun m => (m, none))))) :
    ∃ m ∈ mats, q.1.color = m.color ∧ q.1.metalness = m.metalness ∧
      q.1.roughness = m.roughness ∧ q.1.emissive = m.emissive ∧
      q.1.emissiveIntensity = m.emissiveIntensity ∧ q.2 = none := by
  simp only [applyWireframeModel, List.map_map, List.mem_map, Function.comp] at hq
  obtain ⟨m, hm, rfl⟩ := hq
  exact ⟨m, hm, (applyWireframe_roundtrip_mat m).1, (applyWireframe_roundtrip_mat m).2.1,
    (applyWireframe_roundtrip_mat m).2.2.1, (applyWireframe_roundtrip_mat m).2.2.2.1,
    (applyWireframe_roundtrip_mat m).2.2.2.2.1, (applyWireframe_roundtrip_mat m).2.2.2.2.2⟩

/-- Witness for C6: a concrete standard material with all attributes set,
run through the round trip. -/
theorem wireframe_roundtrip_witness :
    ∃ q ∈ applyWireframeModel false
        (applyWireframeModel true ([sampleWMaterial].map (fun m => (m, none)))),
      ∃ m' ∈ [sampleWMaterial], q.1.color = m'.color ∧ q.1.metalness = m'.metalness ∧
        q.1.roughness = m'.roughness ∧ q.1.emissive = m'.emissive ∧
        q.1.emissiveIntensity = m'.emissiveIntensity ∧ q.2 = none := by
  have hmem : applyWireframeMat false (applyWireframeMat true (sampleWMaterial, none))
      ∈ applyWireframeModel false
          (applyWireframeModel true ([sampleWMaterial].map (fun m => (m, none)))) := by
    simp [applyWireframeModel]
  exact ⟨_, hmem, wireframe_roundtrip [sampleWMaterial] _ hmem⟩

/-- C8: enable is snapshot-idempotent.  A second enable while already
enabled leaves the snapshot exactly as the first enable stored it (the
capture of the pre-first-enable values), and a single disable after the
double enable fully restores those values and evicts the entry. -/
theorem wireframe_double_enable (m : WMaterial) :
    (applyWireframeMat true (applyWireframeMat true (m, none))).2
      = (applyWireframeMat true (m, none)).2 ∧
    (applyWireframeMat true (m, none)).2 = some (captureSnapshot m) ∧
    ((applyWireframeMat false (applyWireframeMat true (applyWireframeMat true (m, none)))).1.color
        = m.color ∧
     (applyWireframeMat false (applyWireframeMat true (applyWireframeMat true (m, none)))).1.metalness
        = m.metalness ∧
     (applyWireframeMat false (applyWireframeMat true (applyWireframeMat true (m, none)))).1.roughness
        = m.roughness ∧
     (applyWireframeMat false (applyWireframeMat true (applyWireframeMat true (m, none)))).1.emissive
        = m.emissive ∧
     (applyWireframeMat false (applyWireframeMat true (applyWireframeMat true (m, none)))).1.emissiveIntensity
        = m.emissiveIntensity) ∧
    (applyWireframeMat false (applyWireframeMat true (applyWireframeMat true (m, none)))).2 = none := by
  obtain ⟨c, met, ro, em, ei, ty, wf, vis, tr, op⟩ := m
  simp only [applyWireframeMat, applyWireframeOn, applyWireframeOff, captureSnapshot,
    if_true, if_false, Bool.false_eq_true, ite_false, ite_true]
  cases met <;> cases ro <;> cases em <;>
    by_cases h : isLitType ty = true <;>
      simp [h, Option.map, Option.isSome]

/-- Counterexample to C7: a material that was transparent with opacity
0.7 and depth-write off is reset to the fixed defaults (opaque, opacity
1, depth-write on) by the disable branch, not restored.  (The disable
call passes the default opacity argument 0.5, which the branch
ignores.) -/
theorem transparency_roundtrip_counterexample :
    applyTransparencyMat false 0.5
        (applyTransparencyMat true 0.5 ⟨true, 0.7, false⟩)
      ≠ ⟨true, 0.7, false⟩ := by
  decide

/-- C7 (amended): `applyTransparency` keeps no snapshot; its disable
branch resets transparent := false, opacity := 1, depthWrite := true
unconditionally, so the enable/disable round trip restores a material's
transparency attributes exactly when the material started in that
default state (opaque, opacity 1, depth-write enabled). -/
theorem transparency_roundtrip_amended (m : TMaterial) (op dis : ℚ)
    (ht : m.transparent = false) (ho : m.opacity = 1) (hd : m.depthWrite = true) :
    applyTransparencyMat false dis (applyTransparencyMat true op m) = m := by
  obtain ⟨t, o, d⟩ := m
  simp only [applyTransparencyMat, if_true, if_false, Bool.false_eq_true, ite_false, ite_true]
  simp_all

/-- C3: the computed connection probability equals the spec formula, and
for positive base probability it is strictly decreasing in distance on
the region beyond the local-boost threshold 0.2×maxDistance. -/
theorem calculateConnectionProbability_spec (d d1 d2 maxDistance base : ℝ)
    (hb : 0 < base) (hm : 0 < maxDistance)
    (h1 : 0.2 * maxDistance < d1) (h12 : d1 < d2) :
    calculateConnectionProbability d maxDistance base
      = connectionProbabilitySpec d maxDistance base ∧
    calculateConnectionProbability d2 maxDistance base
      < calculateConnectionProbability d1 maxDistance base := by
  constructor
  · unfold calculateConnectionProbability connectionProbabilitySpec
    rw [show maxDistance * 0.3 = 0.3 * maxDistance from mul_comm _ _,
        show maxDistance * 0.2 = 0.2 * maxDistance from mul_comm _ _,
        show maxDistance * 0.5 = 0.5 * maxDistance from mul_comm _ _]
    norm_num
  · have hc : (0:ℝ) < maxDistance * 0.3 := by linarith
    have hE : Real.exp (-d2 / (maxDistance * 0.3)) < Real.exp (-d1 / (maxDistance * 0.3)) := by
      apply Real.exp_lt_exp.mpr
      apply div_lt_div_of_pos_right _ hc
      linarith
    have hE1 : (0:ℝ) < Real.exp (-d1 / (maxDistance * 0.3)) := Real.exp_pos _
    have hE2 : (0:ℝ) < Real.exp (-d2 / (maxDistance * 0.3)) := Real.exp_pos _
    unfold calculateConnectionProbability
    split_ifs with hl2 hg2 hl1 hg1 hl1 hg1 <;>
      first
        | (exfalso; linarith)
        | nlinarith [mul_lt_mul_of_pos_left hE hb, mul_pos hb hE2, mul_pos hb hE1]

/-- Witness for C3 at distance 0.25 for the formula, and the pair
d1 = 0.3 < d2 = 0.6 (maxDistance 1, base 1) for the strict decrease. -/
theorem calculateConnectionProbability_spec_witness :
    (0:ℝ) < 1 ∧ 0.2 * (1:ℝ) < 0.3 ∧ (0.3:ℝ) < 0.6 ∧
    (calculateConnectionProbability 0.25 1 1 = connectionProbabilitySpec 0.25 1 1 ∧
     calculateConnectionProbability 0.6 1 1 < calculateConnectionProbability 0.3 1 1) :=
  ⟨by norm_num, by norm_num, by norm_num,
   calculateConnectionProbability_spec 0.25 0.3 0.6 1 1
    (by norm_num) (by norm_num) (by norm_num) (by norm_num)⟩

/-- Counterexample to C2: at the SynapseTransit duration 300 ms and
elapsed time 150 ms (progress 1/2) the code's envelope
`0.8 + 0.2·sin(2π·progress)` gives scale 0.8, while the claimed envelope
`0.8 + 0.2·sin(π·progress)` gives 1. -/
theorem signalPulse_envelope_counterexample :
    signalPulseFrame (fun _ => ⟨0, 0, 0⟩) 300 150
      = .active ⟨0, 0, 0⟩ 0.8 0.8 ∧
    (0.8 : ℝ) ≠ 0.8 + 0.2 * Real.sin (150 / 300 * Real.pi) := by
  constructor
  · unfold signalPulseFrame
    rw [if_pos (by norm_num)]
    have h : (150 / 300 : ℝ) * Real.pi * 2 = Real.pi := by ring
    rw [h, Real.sin_pi]
    norm_num
  · have h : (150 / 300 : ℝ) * Real.pi = Real.pi / 2 := by ring
    rw [h, Real.sin_pi_div_two]
    norm_num

/-- C2 (amended): during SynapseTransit, for every elapsed time
t ∈ [0, duration) the pulse's position is the synapse curve sampled at
normalized progress t/duration, and both its uniform scale and its
material opacity equal 0.8 + 0.2·sin(2π·progress); on completion
(t ≥ duration) the pulse is removed from its parent and its geometry and
material are disposed. -/
theorem signalPulse_frames (curve : ℝ → Vec3) (duration t t' : ℝ)
    (hd : 0 < duration) (ht0 : 0 ≤ t) (ht : t < duration) (ht' : duration ≤ t') :
    signalPulseFrame curve duration t
      = .active (curve (t / duration))
          (0.8 + 0.2 * Real.sin (2 * Real.pi * (t / duration)))
          (0.8 + 0.2 * Real.sin (2 * Real.pi * (t / duration))) ∧
    signalPulseFrame curve duration t' = .finished true true true := by
  have _ := ht0
  constructor
  · unfold signalPulseFrame
    rw [if_pos ((div_lt_one hd).mpr ht)]
    have h : t / duration * Real.pi * 2 = 2 * Real.pi * (t / duration) := by ring
    rw [h]
    ring_nf
  · unfold signalPulseFrame
    rw [if_neg (not_lt.mpr ((one_le_div hd).mpr ht'))]

/-- Witness for C2 (amended) at duration 300, t = 150, t' = 300. -/
theorem signalPulse_frames_witness :
    (0:ℝ) < 300 ∧ (0:ℝ) ≤ 150 ∧ (150:ℝ) < 300 ∧ (300:ℝ) ≤ 300 ∧
    (signalPulseFrame (fun _ => ⟨0, 0, 0⟩) 300 150
      = .active ((fun _ : ℝ => (⟨0, 0, 0⟩ : Vec3)) ((150:ℝ) / 300))
          (0.8 + 0.2 * Real.sin (2 * Real.pi * ((150:ℝ) / 300)))
          (0.8 + 0.2 * Real.sin (2 * Real.pi * ((150:ℝ) / 300))) ∧
     signalPulseFrame (fun _ => ⟨0, 0, 0⟩) 300 300 = .finished true true true) :=
  ⟨by norm_num, by norm_num, by norm_num, by norm_num,
   signalPulse_frames (fun _ => ⟨0, 0, 0⟩) 300 150 300
     (by norm_num) (by norm_num) (by norm_num) (by norm_num)⟩

/-- Counterexample to C5: soma at (0.96, 0.5, 0.5) in the unit box (thus
outside the 0.05 safety margin on x), axon direction (0,1,0), axon
length 0.3.  The clipped axon endpoint (0.96, 0.8, 0.5) fails the safety
test, the fallback shortens to max(0.05, 0.7·maxSafe) — producing
terminal (0.96, 0.815, 0.5), which still violates the margin by 0.01 on
the x axis (far beyond rounding tolerance). -/
theorem createNeuron_safety_counterexample :
    (createNeuron ⟨0.96, 0.5, 0.5⟩ (some ⟨⟨0, 0, 0⟩, ⟨1, 1, 1⟩⟩)
        ⟨3, 0.1, 0.3, fun _ => ⟨1, 0, 0⟩, fun _ => 0, fun _ => 1, fun _ => ⟨1, 0, 0⟩,
         ⟨0, 1, 0⟩, 1, fun _ => ⟨1, 0, 0⟩⟩).axonEnd
      = some ⟨0.96, 0.815, 0.5⟩ ∧
    ¬ isPointInSafeBox ⟨0.96, 0.815, 0.5⟩ ⟨⟨0, 0, 0⟩, ⟨1, 1, 1⟩⟩ 0.05 := by
  constructor
  · norm_num [createNeuron, clipLen, getMaxSafeDistance, minInf, slabExit,
      safeOrNoBox, isPointInSafeBox, Vec3.smul, Vec3.add]
  · norm_num [isPointInSafeBox]

/-! ### Safety of createNeuron from a safe position (C5 amended) -/

/-- `safeOrNoBox` with a present box is exactly `isPointInSafeBox`. -/
theorem safeOrNoBox_some (p : Vec3) (box : Box3) (margin : ℝ) :
    safeOrNoBox p (some box) margin ↔ isPointInSafeBox p box margin := Iff.rfl

/-- `minInf` is `none` iff both arguments are. -/
theorem minInf_eq_none (a b : Option ℝ) :
    minInf a b = none ↔ a = none ∧ b = none := by
  cases a <;> cases b <;> simp [minInf]

/-- `slabExit` is `none` iff the direction component is zero. -/
theorem slabExit_eq_none (p d lo hi : ℝ) :
    slabExit p d lo hi = none ↔ d = 0 := by
  unfold slabExit
  split_ifs with h1 h2
  · simp; linarith
  · simp; linarith
  · simpa using le_antisymm (not_lt.mp h1) (not_lt.mp h2)

/-- A `minInf` value bounds the left argument's value from below. -/
theorem minInf_le_left (a b : Option ℝ) (v x : ℝ)
    (h : minInf a b = some v) (ha : a = some x) : v ≤ x := by
  subst ha
  cases b <;> simp [minInf] at h <;> simp [← h]

/-- A `minInf` value bounds any value of the right argument. -/
theorem minInf_le_right (a b : Option ℝ) (v y : ℝ)
    (h : minInf a b = some v) (hb : b = some y) : v ≤ y := by
  subst hb
  cases a <;> simp [minInf] at h <;> simp [← h]

/-- If getMaxSafeDistance reports no constraint (the JS Infinity), the
direction is the zero vector. -/
theorem gms_none_dir_zero (p d : Vec3) (box : Box3) (margin : ℝ)
    (h : getMaxSafeDistance p d box margin = none) :
    d.x = 0 ∧ d.y = 0 ∧ d.z = 0 := by
  unfold getMaxSafeDistance at h
  simp only [Option.map_eq_none'] at h
  rw [minInf_eq_none, minInf_eq_none] at h
  exact ⟨(slabExit_eq_none _ _ _ _).mp h.1,
         (slabExit_eq_none _ _ _ _).mp h.2.1,
         (slabExit_eq_none _ _ _ _).mp h.2.2⟩

/-- The clamped exit distance is never negative. -/
theorem gms_nonneg (p d : Vec3) (box : Box3) (margin M : ℝ)
    (h : getMaxSafeDistance p d box margin = some M) : 0 ≤ M := by
  unfold getMaxSafeDistance at h
  simp only [Option.map_eq_some'] at h
  obtain ⟨raw, -, hclamp⟩ := h
  rw [← hclamp]
  split_ifs with h0
  · linarith
  · exact le_refl 0

/-- One coordinate stays within its margin bounds when moving a distance
bounded by every applicable slab exit. -/
theorem axis_safe (px dx lo hi M t : ℝ) (hlo : lo ≤ px) (hhi : px ≤ hi)
    (ht0 : 0 ≤ t) (htM : t ≤ M)
    (hslab : ∀ s, slabExit px dx lo hi = some s → M ≤ s) :
    lo ≤ px + t * dx ∧ px + t * dx ≤ hi := by
  rcases lt_trichotomy 0 dx with hdx | hdx | hdx
  · have hs := hslab ((hi - px) / dx) (by simp [slabExit, hdx])
    have htle : t ≤ (hi - px) / dx := le_trans htM hs
    have hmul : t * dx ≤ hi - px := (le_div_iff₀ hdx).mp htle
    constructor
    · nlinarith
    · linarith
  · rw [← hdx]
    simpa using ⟨hlo, hhi⟩
  · have hs := hslab ((px - lo) / (-dx))
      (by simp [slabExit, hdx, not_lt.mpr (le_of_lt hdx)])
    have htle : t ≤ (px - lo) / (-dx) := le_trans htM hs
    have hneg : (0:ℝ) < -dx := by linarith
    have hmul : t * (-dx) ≤ px - lo := (le_div_iff₀ hneg).mp htle
    constructor
    · nlinarith
    · nlinarith

/-- From a point inside the safety margin, moving at most the clamped
exit distance along the direction keeps the point within the margin. -/
theorem gms_move_safe (p d : Vec3) (box : Box3) (margin M t : ℝ)
    (hp : isPointInSafeBox p box margin)
    (hM : getMaxSafeDistance p d box margin = some M)
    (ht0 : 0 ≤ t) (htM : t ≤ M) :
    isPointInSafeBox (p.add (Vec3.smul t d)) box margin := by
  obtain ⟨hx1, hx2, hy1, hy2, hz1, hz2⟩ := hp
  unfold getMaxSafeDistance at hM
  simp only [Option.map_eq_some'] at hM
  obtain ⟨raw, hraw, hclamp⟩ := hM
  by_cases h0 : 0 < raw
  · rw [if_pos h0] at hclamp
    subst hclamp
    have hsx : ∀ s, slabExit p.x d.x (box.min.x + margin) (box.max.x - margin) = some s →
        raw ≤ s := fun s hs => minInf_le_left _ _ _ _ hraw hs
    have hrest : ∀ v, minInf (slabExit p.y d.y (box.min.y + margin) (box.max.y - margin))
        (slabExit p.z d.z (box.min.z + margin) (box.max.z - margin)) = some v → raw ≤ v :=
      fun v hv => minInf_le_right _ _ _ _ hraw hv
    have hsy : ∀ s, slabExit p.y d.y (box.min.y + margin) (box.max.y - margin) = some s →
        raw ≤ s := by
      intro s hs
      cases hz : slabExit p.z d.z (box.min.z + margin) (box.max.z - margin) with
      | none =>
        exact hrest s (by rw [hs, hz]; rfl)
      | some z =>
        have hmin := hrest (min s z) (by rw [hs, hz]; rfl)
        exact le_trans hmin (min_le_left _ _)
    have hsz : ∀ s, slabExit p.z d.z (box.min.z + margin) (box.max.z - margin) = some s →
        raw ≤ s := by
      intro s hs
      cases hy : slabExit p.y d.y (box.min.y + margin) (box.max.y - margin) with
      | none =>
        exact hrest s (by rw [hy, hs]; rfl)

      | some y =>
        have hmin := hrest (min y s) (by rw [hy, hs]; rfl)
        exact le_trans hmin (min_le_right _ _)
    have hx := axis_safe p.x d.x (box.min.x + margin) (box.max.x - margin) raw t hx1 hx2 ht0 htM hsx
    have hy := axis_safe p.y d.y (box.min.y + margin) (box.max.y - margin) raw t hy1 hy2 ht0 htM hsy
    have hz := axis_safe p.z d.z (box.min.z + margin) (box.max.z - margin) raw t hz1 hz2 ht0 htM hsz
    exact ⟨hx.1, hx.2, hy.1, hy.2, hz.1, hz.2⟩
  · rw [if_neg h0] at hclamp
    have ht : t = 0 := le_antisymm (hclamp ▸ htM) ht0
    subst ht
    simpa [Vec3.add, Vec3.smul] using ⟨hx1, hx2, hy1, hy2, hz1, hz2⟩

/-- Adding any multiple of the zero vector does not move a point. -/
theorem add_smul_zero_dir (p d : Vec3) (c : ℝ)
    (h : d.x = 0 ∧ d.y = 0 ∧ d.z = 0) : p.add (Vec3.smul c d) = p := by
  obtain ⟨h1, h2, h3⟩ := h
  cases p
  cases d
  simp_all [Vec3.add, Vec3.smul]

/-- Every endpoint the dendrite loop emits has passed the
isPointInSafeBox acceptance test. -/
theorem dendriteEndpoints_safe (position : Vec3) (box : Box3) (margin : ℝ)
    (O : NeuronOracle) :
    ∀ p ∈ dendriteEndpoints position (some box) margin O,
      isPointInSafeBox p box margin := by
  intro p hp
  unfold dendriteEndpoints at hp
  simp only [List.mem_flatMap] at hp
  obtain ⟨i, -, hp⟩ := hp
  simp only [safeOrNoBox_some] at hp
  split_ifs at hp <;>
    simp only [List.append_nil, List.mem_append, List.mem_singleton,
      List.not_mem_nil, or_false, false_or] at hp
  all_goals
    first
      | exact absurd hp (List.not_mem_nil p)
      | (rcases hp with rfl | rfl <;> assumption)

/-- The dendrite-endpoint list of a created neuron is the dendrite loop
output (every branch of createNeuron carries it through unchanged). -/
theorem createNeuron_dends (position : Vec3) (box : Box3) (O : NeuronOracle) :
    (createNeuron position (some box) O).dendriteEndpoints
      = dendriteEndpoints position (some box) 0.05 O := by
  simp only [createNeuron]
  split_ifs <;> first | rfl | (split <;> rfl)

/-- C5 (amended): for every neuron created by createNeuron with a
supplied boundary box whose soma position itself respects the 0.05
safety margin (and a nonnegative axon length draw, as the code's
[0.2, 0.5] range guarantees), every accepted dendrite endpoint and the
axon terminal lie within the safety margin of that boundary; the
fallback shortening path is never reached from a safe position, and it
is only from unsafe positions that the floor of max(0.05, 0.7·maxSafe)
can push the terminal past the margin. -/
theorem createNeuron_safe (position : Vec3) (box : Box3) (O : NeuronOracle)
    (hpos : isPointInSafeBox position box 0.05) (hax : 0 ≤ O.axonLength) :
    (∀ p ∈ (createNeuron position (some box) O).dendriteEndpoints,
        isPointInSafeBox p box 0.05) ∧
    ∃ e, (createNeuron position (some box) O).axonEnd = some e ∧
        isPointInSafeBox e box 0.05 := by
  constructor
  · rw [createNeuron_dends]
    exact dendriteEndpoints_safe position box 0.05 O
  · have hsafe : isPointInSafeBox
        (position.add (Vec3.smul
          (clipLen O.axonLength (getMaxSafeDistance position O.axonDir box 0.05))
          O.axonDir)) box 0.05 := by
      cases hg : getMaxSafeDistance position O.axonDir box 0.05 with
      | none =>
        rw [add_smul_zero_dir _ _ _ (gms_none_dir_zero _ _ _ _ hg)]
        exact hpos
      | some M =>
        have hM0 : 0 ≤ M := gms_nonneg _ _ _ _ _ hg
        have hact0 : 0 ≤ clipLen O.axonLength (some M) :=
          le_min hax (by nlinarith)
        have hactM : clipLen O.axonLength (some M) ≤ M :=
          le_trans (min_le_right _ _) (by nlinarith)
        exact gms_move_safe position O.axonDir box 0.05 M _ hpos hg hact0 hactM
    refine ⟨position.add (Vec3.smul
      (clipLen O.axonLength (getMaxSafeDistance position O.axonDir box 0.05))
      O.axonDir), ?_, hsafe⟩
    simp only [createNeuron]
    rw [if_pos ((safeOrNoBox_some _ _ _).mpr hsafe)]

/-- Witness for C5 (amended): soma at the unit-box center, axon along
+x of length 0.3, three dendrites along +x. -/
theorem createNeuron_safe_witness :
    isPointInSafeBox ⟨0.5, 0.5, 0.5⟩ ⟨⟨0, 0, 0⟩, ⟨1, 1, 1⟩⟩ 0.05 ∧
    (0:ℝ) ≤ (⟨3, 0.1, 0.3, fun _ => ⟨1, 0, 0⟩, fun _ => 0, fun _ => 1, fun _ => ⟨1, 0, 0⟩,
      ⟨1, 0, 0⟩, 1, fun _ => ⟨1, 0, 0⟩⟩ : NeuronOracle).axonLength ∧
    ((∀ p ∈ (createNeuron ⟨0.5, 0.5, 0.5⟩ (some ⟨⟨0, 0, 0⟩, ⟨1, 1, 1⟩⟩)
          ⟨3, 0.1, 0.3, fun _ => ⟨1, 0, 0⟩, fun _ => 0, fun _ => 1, fun _ => ⟨1, 0, 0⟩,
           ⟨1, 0, 0⟩, 1, fun _ => ⟨1, 0, 0⟩⟩).dendriteEndpoints,
        isPointInSafeBox p ⟨⟨0, 0, 0⟩, ⟨1, 1, 1⟩⟩ 0.05) ∧
     ∃ e, (createNeuron ⟨0.5, 0.5, 0.5⟩ (some ⟨⟨0, 0, 0⟩, ⟨1, 1, 1⟩⟩)
          ⟨3, 0.1, 0.3, fun _ => ⟨1, 0, 0⟩, fun _ => 0, fun _ => 1, fun _ => ⟨1, 0, 0⟩,
           ⟨1, 0, 0⟩, 1, fun _ => ⟨1, 0, 0⟩⟩).axonEnd = some e ∧
        isPointInSafeBox e ⟨⟨0, 0, 0⟩, ⟨1, 1, 1⟩⟩ 0.05) :=
  ⟨by norm_num [isPointInSafeBox], by norm_num,
   createNeuron_safe ⟨0.5, 0.5, 0.5⟩ ⟨⟨0, 0, 0⟩, ⟨1, 1, 1⟩⟩
     ⟨3, 0.1, 0.3, fun _ => ⟨1, 0, 0⟩, fun _ => 0, fun _ => 1, fun _ => ⟨1, 0, 0⟩,
      ⟨1, 0, 0⟩, 1, fun _ => ⟨1, 0, 0⟩⟩
     (by norm_num [isPointInSafeBox]) (by norm_num)⟩

/-- A placement attempt bumps the attempts counter by exactly one. -/
theorem tryPlace_attempts (P : GenParams) (O : GenOracle) (pos : Vec3)
    (s : GenState) : (tryPlace P O pos s).attempts = s.attempts + 1 := by
  unfold tryPlace
  split_ifs with h1
  · split <;> first | rfl | (split_ifs <;> rfl)
  · rfl

/-- A guarded placement attempt preserves the invariant. -/
theorem tryPlace_inv (P : GenParams) (O : GenOracle) (pos : Vec3) (s : GenState)
    (hidx : s.neuronIndex < P.count) (hatt : s.attempts < P.maxAttempts)
    (hlen : s.neurons.length = s.neuronIndex) :
    GenInv P (tryPlace P O pos s) := by
  unfold tryPlace GenInv
  split_ifs with h1
  · split
    all_goals
      first
        | exact ⟨hatt, hlen, le_of_lt hidx⟩
        | (split_ifs with h2
           · exact ⟨hatt, by simp [hlen], hidx⟩
           · exact ⟨hatt, hlen, le_of_lt hidx⟩)
  · exact ⟨hatt, hlen, le_of_lt hidx⟩

/-- The cluster inner loop preserves the invariant. -/
theorem clusterInner_inv (P : GenParams) (O : GenOracle) (c : Vec3) :
    ∀ (n : ℕ) (s : GenState), GenInv P s → GenInv P (clusterInner P O c n s) := by
  intro n
  induction n with
  | zero => intro s h; exact h
  | succ n ih =>
    intro s h
    unfold clusterInner
    split_ifs with hg
    · exact ih _ (tryPlace_inv P O _ s hg.1 hg.2 h.2.1)
    · exact h

/-- The cluster loop preserves the invariant. -/
theorem clusterLoop_inv (P : GenParams) (O : GenOracle) :
    ∀ (cs : List ℕ) (s : GenState), GenInv P s → GenInv P (clusterLoop P O cs s) := by
  intro cs
  induction cs with
  | nil => intro s h; exact h
  | cons c rest ih =>
    intro s h
    unfold clusterLoop
    split_ifs with hg hc
    · exact ih _ (clusterInner_inv P O _ _ s h)
    · exact ih _ h
    · exact h

/-- The fill loop preserves the invariant. -/
theorem fillLoop_inv (P : GenParams) (O : GenOracle) :
    ∀ (fuel : ℕ) (s : GenState), GenInv P s → GenInv P (fillLoop P O fuel s) := by
  intro fuel
  induction fuel with
  | zero => intro s h; exact h
  | succ fuel ih =>
    intro s h
    unfold fillLoop
    split_ifs with hg
    · exact ih _ (tryPlace_inv P O _ s hg.1 hg.2 h.2.1)
    · exact h

/-- The structural fuel of the fill loop is an artifact: any two fuels
at least maxAttempts − attempts + 1 give the same result, because every
iteration bumps `attempts` and the guard `attempts < maxAttempts` then
stops the loop.  (So the JS while-loop and the fueled model agree.) -/
theorem fillLoop_fuel_irrelevant (P : GenParams) (O : GenOracle) :
    ∀ (f1 f2 : ℕ) (s : GenState),
      P.maxAttempts ≤ s.attempts + f1 → P.maxAttempts ≤ s.attempts + f2 →
      fillLoop P O f1 s = fillLoop P O f2 s := by
  intro f1
  induction f1 with
  | zero =>
    intro f2 s h1 h2
    cases f2 with
    | zero => rfl
    | succ f2 =>
      rw [fillLoop, fillLoop]
      rw [if_neg]
      intro hg
      omega
  | succ f1 ih =>
    intro f2 s h1 h2
    cases f2 with
    | zero =>
      rw [fillLoop, fillLoop]
      rw [if_neg]
      intro hg
      omega
    | succ f2 =>
      rw [fillLoop]
      conv_rhs => rw [fillLoop]
      split_ifs with hg
      · exact ih f2 _ (by rw [tryPlace_attempts]; omega) (by rw [tryPlace_attempts]; omega)
      · rfl

/-- The whole placement pipeline (clusters then fill) satisfies the
invariant from the empty initial state. -/
theorem genPipeline_inv (P : GenParams) (O : GenOracle) (cs : List ℕ) (fuel : ℕ) :
    GenInv P (fillLoop P O fuel (clusterLoop P O cs ⟨[], 0, 0⟩)) :=
  fillLoop_inv P O fuel _
    (clusterLoop_inv P O cs _ ⟨Nat.zero_le _, rfl, Nat.zero_le _⟩)

/-- C10: for every requested count (and any bounding box, base
probability and random outcomes), the builder performs at most 10×count
placement attempts, and the network it returns — possibly smaller than
requested when the cap is hit — has at most `count` neurons.  The
builder is a total function: exhausting the cap under-delivers instead
of erroring. -/
theorem createNeuronNetwork_attempt_cap (box : Box3) (count : ℕ)
    (connectionProbability : ℝ) (O : GenOracle) :
    (createNeuronNetwork box count connectionProbability O).attempts ≤ count * 10 ∧
    (createNeuronNetwork box count connectionProbability O).neurons.length ≤ count := by
  simp only [createNeuronNetwork]
  constructor
  · exact (genPipeline_inv _ O _ _).1
  · exact le_of_eq_of_le (genPipeline_inv _ O _ _).2.1 (genPipeline_inv _ O _ _).2.2

/-- The connection probability is positive whenever the base probability
is (every factor — exponential, local boost, global damp — is
positive). -/
theorem calculateConnectionProbability_pos (d maxDistance base : ℝ)
    (hb : 0 < base) : 0 < calculateConnectionProbability d maxDistance base := by
  unfold calculateConnectionProbability
  split_ifs <;> positivity

/-- Every synapse the connection phase emits joins an existing
source/target pair, records the source's axon terminal as its from
point, has pair distance strictly below maxDistance, and was created
because the uniform draw fell below the computed probability. -/
theorem synapsePhase_mem (neurons : List PlacedNeuron) (maxDistance base : ℝ)
    (O : GenOracle) :
    ∀ syn ∈ synapsePhase neurons maxDistance base O,
      ∃ src tgt, neurons[syn.srcIdx]? = some src ∧ neurons[syn.tgtIdx]? = some tgt ∧
        syn.fromPoint = src.axonEnd ∧
        dist3 src.axonEnd tgt.position < maxDistance ∧
        O.connRand syn.srcIdx syn.tgtIdx
          < calculateConnectionProbability (dist3 src.axonEnd tgt.position)
              maxDistance base := by
  intro syn hs
  unfold synapsePhase at hs
  simp only [List.mem_flatMap, List.mem_filterMap] at hs
  obtain ⟨p, hp, q, hq, hf⟩ := hs
  rw [List.mem_enum_iff_getElem?] at hp hq
  split_ifs at hf with h1 h2
  all_goals
    first
      | simp only [reduceCtorEq] at hf
      | (rw [Option.some.injEq] at hf
         subst hf
         exact ⟨p.2, q.2, hp, hq, rfl, h2.2, h2.1⟩)

/-- C4: in every network the builder produces, every synapse connects a
source/target pair of that network whose distance
d = distance(source.axonEnd, target.position) is strictly less than
maxDistance = 0.4 × min(size.x, size.y, size.z) of the original
bounding box, and the synapse exists only because the uniform draw for
that ordered pair fell below the computed connection probability. -/
theorem createNeuronNetwork_synapses_spec (box : Box3) (count : ℕ)
    (connectionProbability : ℝ) (O : GenOracle) (syn : NetSynapse)
    (hs : syn ∈ (createNeuronNetwork box count connectionProbability O).synapses) :
    ∃ src tgt,
      (createNeuronNetwork box count connectionProbability O).neurons[syn.srcIdx]?
        = some src ∧
      (createNeuronNetwork box count connectionProbability O).neurons[syn.tgtIdx]?
        = some tgt ∧
      syn.fromPoint = src.axonEnd ∧
      dist3 src.axonEnd tgt.position
        < (createNeuronNetwork box count connectionProbability O).maxDistance ∧
      O.connRand syn.srcIdx syn.tgtIdx
        < calculateConnectionProbability (dist3 src.axonEnd tgt.position)
            (createNeuronNetwork box count connectionProbability O).maxDistance
            connectionProbability ∧
      (createNeuronNetwork box count connectionProbability O).maxDistance
        = min (min box.size.x box.size.y) box.size.z * 0.4 := by
  obtain ⟨src, tgt, h1, h2, h3, h4, h5⟩ :=
    synapsePhase_mem (createNeuronNetwork box count connectionProbability O).neurons
      (createNeuronNetwork box count connectionProbability O).maxDistance
      connectionProbability O syn hs
  exact ⟨src, tgt, h1, h2, h3, h4, h5, rfl⟩

/-- Unfolding equation of the fueled fill loop. -/
theorem fillLoop_succ (P : GenParams) (O : GenOracle) (fuel : ℕ) (s : GenState) :
    fillLoop P O (fuel + 1) s =
      if s.neuronIndex < P.count ∧ s.attempts < P.maxAttempts then
        fillLoop P O fuel (tryPlace P O
          ⟨P.safeCenter.x + ((O.fillRand s.attempts).x - 0.5) * P.safeSize.x * 0.4,
           P.safeCenter.y + ((O.fillRand s.attempts).y - 0.5) * P.safeSize.y * 0.4,
           P.safeCenter.z + ((O.fillRand s.attempts).z - 0.5) * P.safeSize.z * 0.4⟩ s)
      else s := rfl

/-- The fill loop is the identity once its guard fails. -/
theorem fillLoop_exit (P : GenParams) (O : GenOracle) (fuel : ℕ) (s : GenState)
    (h : ¬(s.neuronIndex < P.count ∧ s.attempts < P.maxAttempts)) :
    fillLoop P O fuel s = s := by
  cases fuel with
  | zero => rfl
  | succ fuel => rw [fillLoop_succ, if_neg h]

/-- The cluster loop does nothing on an empty cluster list. -/
theorem clusterLoop_nil (P : GenParams) (O : GenOracle) (s : GenState) :
    clusterLoop P O [] s = s := rfl

/-- Evaluation of the concrete run's placement phase: count = 2 gives
zero clusters, and the two fill attempts are both accepted. -/
theorem wNetwork_neurons :
    (createNeuronNetwork wBox 2 1 wOracle).neurons = [wN0, wN1] := by
  simp only [createNeuronNetwork, show ((2:ℕ)/10) = 0 from rfl, List.range_zero,
    clusterLoop_nil]
  rw [fillLoop_succ, if_pos (by constructor <;> norm_num)]
  norm_num [tryPlace, Box3.containsPoint, isPointInSafeBox, Box3.center, Box3.size,
    min_def, wOracle, wBox]
  rw [show (20 : ℕ) = 19 + 1 from rfl, fillLoop_succ, if_pos (by constructor <;> norm_num)]
  norm_num [tryPlace, Box3.containsPoint, isPointInSafeBox, Box3.center, Box3.size,
    min_def, wOracle, wBox]
  rw [fillLoop_exit _ _ _ _ (by norm_num)]
  norm_num [wN0, wN1, Vec3.mk.injEq]

/-- The concrete run's maxDistance is 0.8. -/
theorem wNetwork_maxDistance :
    (createNeuronNetwork wBox 2 1 wOracle).maxDistance = 0.8 := by
  simp only [createNeuronNetwork]
  norm_num [wBox, Box3.size, min_def]

/-- Square roots showing up in the concrete run. -/
theorem wSqrt_inv_hundred : Real.sqrt (1 / 100 : ℝ) = 1 / 10 := by
  rw [show (1 / 100 : ℝ) = (1 / 10) ^ 2 by norm_num,
    Real.sqrt_sq (by norm_num : (0:ℝ) ≤ 1 / 10)]

/-- Square roots showing up in the concrete run. -/
theorem wSqrt_hundred : Real.sqrt (100 : ℝ) = 10 := by
  rw [show (100 : ℝ) = 10 ^ 2 by norm_num,
    Real.sqrt_sq (by norm_num : (0:ℝ) ≤ 10)]

/-- The concrete pair distance: 0.1. -/
theorem wPair_dist : dist3 wN0.axonEnd wN1.position = 0.1 := by
  unfold dist3 Vec3.len Vec3.sub wN0 wN1
  norm_num [wSqrt_inv_hundred, wSqrt_hundred]

/-- The concrete synapse is produced by the connection phase. -/
theorem wSyn_mem : wSyn ∈ (createNeuronNetwork wBox 2 1 wOracle).synapses := by
  show wSyn ∈ synapsePhase (createNeuronNetwork wBox 2 1 wOracle).neurons
      (createNeuronNetwork wBox 2 1 wOracle).maxDistance 1 wOracle
  rw [wNetwork_neurons, wNetwork_maxDistance]
  unfold synapsePhase
  apply List.mem_flatMap.mpr
  refine ⟨(0, wN0), List.mem_enum_iff_getElem?.mpr rfl, ?_⟩
  apply List.mem_filterMap.mpr
  refine ⟨(1, wN1), List.mem_enum_iff_getElem?.mpr rfl, ?_⟩
  dsimp only
  rw [if_neg (by norm_num)]
  have hcond : wOracle.connRand 0 1
      < calculateConnectionProbability (dist3 wN0.axonEnd wN1.position) 0.8 1 ∧
      dist3 wN0.axonEnd wN1.position < 0.8 := by
    constructor
    · rw [show wOracle.connRand 0 1 = 0 from rfl, wPair_dist]
      exact calculateConnectionProbability_pos 0.1 0.8 1 (by norm_num)
    · rw [wPair_dist]
      norm_num
  rw [if_pos hcond]
  norm_num [wSyn, wN0, wN1, Vec3.sub, Vec3.add, Vec3.smul, Vec3.normalize, Vec3.len,
    wOracle, wSqrt_inv_hundred, wSqrt_hundred, NetSynapse.mk.injEq, Vec3.mk.injEq]

/-- Witness for C4: the concrete two-neuron run, its synapse, and the
conclusion of the synapse invariant at that input. -/
theorem createNeuronNetwork_synapses_spec_witness :
    wSyn ∈ (createNeuronNetwork wBox 2 1 wOracle).synapses ∧
    (∃ src tgt,
      (createNeuronNetwork wBox 2 1 wOracle).neurons[wSyn.srcIdx]? = some src ∧
      (createNeuronNetwork wBox 2 1 wOracle).neurons[wSyn.tgtIdx]? = some tgt ∧
      wSyn.fromPoint = src.axonEnd ∧
      dist3 src.axonEnd tgt.position
        < (createNeuronNetwork wBox 2 1 wOracle).maxDistance ∧
      wOracle.connRand wSyn.srcIdx wSyn.tgtIdx
        < calculateConnectionProbability (dist3 src.axonEnd tgt.position)
            (createNeuronNetwork wBox 2 1 wOracle).maxDistance 1 ∧
      (createNeuronNetwork wBox 2 1 wOracle).maxDistance
        = min (min wBox.size.x wBox.size.y) wBox.size.z * 0.4) :=
  ⟨wSyn_mem, createNeuronNetwork_synapses_spec wBox 2 1 wOracle wSyn wSyn_mem⟩

/-- C9: whenever the triggered triple has no synapse or no target, the
machine returns normally (no exception), creates no SignalPulse, runs
neither SynapseTransit nor TargetFlash, runs SourceFlash exactly when
the source has a soma, and marks the animation complete. -/
theorem propagation_no_synapse_or_target (src : PropNeuron)
    (targetNeuron : Option PropNeuron) (synapse : Option PropSynapse)
    (hsrc : src.hasUserData = true)
    (h : synapse = none ∨ targetNeuron = none) :
    animateNeuralSignalPropagation (some src) targetNeuron synapse (some ())
      = some ⟨src.hasSoma, 0, false, false, true⟩ := by
  rcases h with h | h
  · subst h
    simp [animateNeuralSignalPropagation, hsrc]
  · subst h
    cases synapse <;> simp [animateNeuralSignalPropagation, hsrc]

/-- Witness for C9: a source neuron with a soma, no synapse and no
target. -/
theorem propagation_no_synapse_or_target_witness :
    (⟨true, true⟩ : PropNeuron).hasUserData = true ∧
    ((none : Option PropSynapse) = none ∨ (none : Option PropNeuron) = none) ∧
    animateNeuralSignalPropagation (some ⟨true, true⟩) none none (some ())
      = some ⟨true, 0, false, false, true⟩ :=
  ⟨rfl, Or.inl rfl,
   propagation_no_synapse_or_target ⟨true, true⟩ none none rfl (Or.inl rfl)⟩

/-- Witness for C7 (amended) at the default material state. -/
theorem transparency_roundtrip_amended_witness :
    (⟨false, 1, true⟩ : TMaterial).transparent = false ∧
    (⟨false, 1, true⟩ : TMaterial).opacity = 1 ∧
    (⟨false, 1, true⟩ : TMaterial).depthWrite = true ∧
    applyTransparencyMat false 0.5 (applyTransparencyMat true 0.3 ⟨false, 1, true⟩)
      = ⟨false, 1, true⟩ :=
  ⟨rfl, rfl, rfl, transparency_roundtrip_amended ⟨false, 1, true⟩ 0.3 0.5 rfl rfl rfl⟩

end

end BrainDemo
